import Mathlib

/-
Shallow embedding of the Email-Scheduling repository's core logic:
  - src/crew_notifier.py  : analyze_and_notify_crew (deduplicating notifier)
  - src/membersdata.py    : analyze_crew_certifications (classification report)
  - src/finalcheck.py     : analyze_and_notify_crew (non-dedup notifier + report)
Dates are values of a DateTime record ordered lexicographically; the Python
datetime.strptime(s, DATE_FORMAT) call with DATE_FORMAT = '%d-%b-%Y' is
modelled by an executable parser returning Option DateTime (midnight).
-/

/-- A point in time: calendar date plus seconds within the day (0 ≤ sec < 86400),
modelling a Python datetime value to second precision. -/
structure DateTime where
  year : Nat
  month : Nat
  day : Nat
  sec : Nat
deriving DecidableEq

/-- Order-preserving encoding of a DateTime field tuple into a Nat
(month < 13, day < 32, sec < 100000 make the encoding lexicographic). -/
def DateTime.key (t : DateTime) : Nat :=
  ((t.year * 13 + t.month) * 32 + t.day) * 100000 + t.sec

/-- Strict comparison of datetimes, modelling Python datetime `<`. -/
def dtLt (a b : DateTime) : Bool :=
  decide (a.key < b.key)

/-- ASCII lower-casing of a single character, as Python strptime lower-cases
month names before matching. -/
def lowerChar (c : Char) : Char :=
  if 'A' ≤ c ∧ c ≤ 'Z' then Char.ofNat (c.toNat + 32) else c

/-- Lower-case every character of a string. -/
def lowerStr (s : String) : String :=
  ⟨s.data.map lowerChar⟩

/-- Month number for an abbreviated month name, matched case-insensitively
(the %b directive of strptime). -/
def monthOfAbbrev (s : String) : Option Nat :=
  let t := lowerStr s
  if t = "jan" then some 1
  else if t = "feb" then some 2
  else if t = "mar" then some 3
  else if t = "apr" then some 4
  else if t = "may" then some 5
  else if t = "jun" then some 6
  else if t = "jul" then some 7
  else if t = "aug" then some 8
  else if t = "sep" then some 9
  else if t = "oct" then some 10
  else if t = "nov" then some 11
  else if t = "dec" then some 12
  else none

/-- Split a character list at every '-' (the literal separators of the
'%d-%b-%Y' format). -/
def splitDashAux : List Char → List Char → List (List Char)
  | [], acc => [acc.reverse]
  | c :: rest, acc =>
    if c = '-' then acc.reverse :: splitDashAux rest []
    else splitDashAux rest (c :: acc)

/-- All characters are ASCII digits. -/
def allDigits (l : List Char) : Bool :=
  l.all fun c => c.isDigit

/-- Decimal value of a digit list. -/
def digitsToNat (l : List Char) : Nat :=
  l.foldl (fun a c => a * 10 + (c.toNat - 48)) 0

/-- Gregorian leap-year rule used by Python's datetime. -/
def isLeapYear (y : Nat) : Bool :=
  decide ((y % 4 = 0 ∧ y % 100 ≠ 0) ∨ y % 400 = 0)

/-- Number of days in a month of a given year. -/
def daysInMonth (y m : Nat) : Nat :=
  if m = 2 then (if isLeapYear y then 29 else 28)
  else if m = 4 ∨ m = 6 ∨ m = 9 ∨ m = 11 then 30 else 31

/-- Models datetime.strptime(s, '%d-%b-%Y'): a 1-2 digit day, an abbreviated
month name (case-insensitive), and a 4-digit year, joined by '-'; the day must
exist in that month and the year must be at least MINYEAR = 1. Any failure —
which in Python raises ValueError/TypeError, always caught by the callers —
is the value none. The parsed datetime is at midnight (sec = 0). -/
def parseDate (s : String) : Option DateTime :=
  match splitDashAux s.data [] with
  | [ds, ms, ys] =>
    if allDigits ds = true ∧ 1 ≤ ds.length ∧ ds.length ≤ 2 ∧
       allDigits ys = true ∧ ys.length = 4 then
      match monthOfAbbrev ⟨ms⟩ with
      | none => none
      | some m =>
        let d := digitsToNat ds
        let y := digitsToNat ys
        if 1 ≤ d ∧ d ≤ daysInMonth y m ∧ 1 ≤ y then
          some ⟨y, m, d, 0⟩
        else none
    else none
  | _ => none

/-- Decidable equality of Except values over decidable components, used to
evaluate run outcomes on concrete inputs. -/
instance {ε α : Type} [DecidableEq ε] [DecidableEq α] :
    DecidableEq (Except ε α) := fun a b =>
  match a, b with
  | Except.error x, Except.error y =>
    if h : x = y then isTrue (by rw [h])
    else isFalse (fun hc => h (by injection hc))
  | Except.error _, Except.ok _ => isFalse (fun hc => Except.noConfusion hc)
  | Except.ok _, Except.error _ => isFalse (fun hc => Except.noConfusion hc)
  | Except.ok x, Except.ok y =>
    if h : x = y then isTrue (by rw [h])
    else isFalse (fun hc => h (by injection hc))

/-- A document record (a dict in the database). Fields model dict.get results:
none means the key is absent. -/
structure Doc where
  document_certificate : Option String
  expiry_date : Option String
  document_number : Option String
deriving DecidableEq

/-- An entry of a crew member's document list: either a record (dict) or a
non-record value, which every loop skips with an isinstance check. -/
inductive DocEntry
  | dict (d : Doc)
  | nonDict
deriving DecidableEq

/-- A crew record: personal_details.email, personal_details.first_name and
the documents list, each possibly absent. -/
structure CrewData where
  email : Option String
  first_name : Option String
  documents : Option (List DocEntry)
deriving DecidableEq

/-- Python truthiness of an optional string: None and the empty string are
falsy (`if not email`, `if not expiry_date_str`, `if not doc_number`). -/
def truthyStr : Option String → Option String
  | none => none
  | some s => if s.isEmpty then none else some s

/-- Python truthiness of an optional list: None and the empty list are falsy
(`if not documents`). -/
def truthyDocs : Option (List DocEntry) → Option (List DocEntry)
  | none => none
  | some [] => none
  | some (e :: l) => some (e :: l)

/-- Python str.replace with a single-character pattern and single-character
replacement, as a character map. -/
def replaceChar (a b : Char) (s : String) : String :=
  ⟨s.data.map fun c => if c = a then b else c⟩

/-- safe_doc_number = doc_number.replace('.', '_').replace('/', '_').replace('#', '_')
(crew_notifier.py line 144). -/
def sanitize (dn : String) : String :=
  replaceChar '#' '_' (replaceChar '/' '_' (replaceChar '.' '_' dn))

/-- notification_id = f"EXPIRED_{safe_doc_number}" (crew_notifier.py line 145). -/
def deriveKey (dn : String) : String :=
  "EXPIRED_" ++ sanitize dn

/-- The notification key written for a document after a successful send
(crew_notifier.py lines 173-175; document_number is re-read from the doc). -/
def keyOf (d : Doc) : String :=
  deriveKey (d.document_number.getD "")

/-- The expiry check of crew_notifier.py lines 129-135: is_expired is set
exactly when the expiry field is truthy, parses, and the parsed date is
strictly before now; a malformed date skips the document (never expired). -/
def isExpiredN (doc : Doc) (now : DateTime) : Bool :=
  match truthyStr doc.expiry_date with
  | none => false
  | some s =>
    match parseDate s with
    | none => false
    | some d => dtLt d now

/-- The three classification outcomes of membersdata.py / finalcheck.py. -/
inductive Classification
  | Valid
  | Expired
  | StatusUnknown
deriving DecidableEq

/-- The classifier of membersdata.py lines 76-94 (identical in finalcheck.py
lines 120-132): missing/empty or unparseable expiry is status-unknown
(the expiry_not_mentioned bucket); otherwise Valid when parsed > now and
Expired otherwise. -/
def classifyM (doc : Doc) (now : DateTime) : Classification :=
  match truthyStr doc.expiry_date with
  | none => Classification.StatusUnknown
  | some s =>
    match parseDate s with
    | none => Classification.StatusUnknown
    | some d =>
      if dtLt now d then Classification.Valid else Classification.Expired

/-- External collaborators of one run of crew_notifier.analyze_and_notify_crew:
the per-member ledger read (log_ref.get(), which may raise — Except.error —
or report presence of the key), the generate_email_body result (None on any
Gemini failure or missing key) and the send_email outcome per recipient
(send_email catches its own exceptions and returns a Bool). Ledger keys are
namespaced per crew id, matching the Firebase path
{CREW_DATA_PATH}/{crew_id}/notification_log/{notification_id}. -/
structure Env where
  ledgerGet : String → String → Except Unit Bool
  emailBody : Option String
  sendOk : String → Bool

/-- The per-document loop of crew_notifier.py lines 122-152 building
expired_certs_to_notify: skip non-dicts; skip non-expired docs; skip expired
docs with no truthy document_number; otherwise derive the notification key and
read the ledger — a raised storage error propagates (Except.error), a present
entry skips the doc, an absent entry keeps it. Input order is preserved. -/
def reconcileE (env : Env) (cid : String) (docs : List DocEntry)
    (now : DateTime) : Except Unit (List Doc) :=
  match docs with
  | [] => Except.ok []
  | DocEntry.nonDict :: rest => reconcileE env cid rest now
  | DocEntry.dict doc :: rest =>
    if isExpiredN doc now then
      match truthyStr doc.document_number with
      | none => reconcileE env cid rest now
      | some dn =>
        match env.ledgerGet cid (deriveKey dn) with
        | Except.error e => Except.error e
        | Except.ok true => reconcileE env cid rest now
        | Except.ok false =>
          match reconcileE env cid rest now with
          | Except.error e => Except.error e
          | Except.ok l => Except.ok (doc :: l)
    else reconcileE env cid rest now

/-- The per-member body of crew_notifier.py lines 105-180. Result: the emails
sent, as (recipient, notified docs) pairs, and the ledger writes performed, as
(crew id, notification key) pairs; Except.error models an uncaught exception
from the ledger read. A falsy email or falsy documents list skips the member;
an empty toNotify batch sends nothing; a failed body generation or failed
dispatch writes nothing; a successful dispatch writes one entry per notified
document. -/
def processMember (env : Env) (now : DateTime) (cid : String) (cd : CrewData) :
    Except Unit (List (String × List Doc) × List (String × String)) :=
  match truthyStr cd.email with
  | none => Except.ok ([], [])
  | some email =>
    match truthyDocs cd.documents with
    | none => Except.ok ([], [])
    | some docs =>
      match reconcileE env cid docs now with
      | Except.error e => Except.error e
      | Except.ok toNotify =>
        if toNotify.isEmpty then Except.ok ([], [])
        else
          match env.emailBody with
          | none => Except.ok ([], [])
          | some _ =>
            if env.sendOk email then
              Except.ok ([(email, toNotify)],
                toNotify.map fun d => (cid, keyOf d))
            else Except.ok ([], [])

/-- Aggregate outcome of one run: emails sent, ledger writes, and whether the
run reached its end ("Process complete!") rather than dying on an uncaught
exception. -/
structure RunOut where
  sent : List (String × List Doc)
  writes : List (String × String)
  completed : Bool
deriving DecidableEq

/-- The crew loop of crew_notifier.analyze_and_notify_crew over the fetched
roster. There is no try/except around the loop body, so an exception raised
while processing one member propagates: effects of earlier members persist,
later members are not processed, and the run does not complete. -/
def analyzeAndNotifyCrew (env : Env) (now : DateTime) :
    List (String × CrewData) → RunOut
  | [] => ⟨[], [], true⟩
  | (cid, cd) :: rest =>
    match processMember env now cid cd with
    | Except.error _ => ⟨[], [], false⟩
    | Except.ok (s, w) =>
      let r := analyzeAndNotifyCrew env now rest
      ⟨s ++ r.sent, w ++ r.writes, r.completed⟩

/-- The records (dicts) of a document list, in order; non-dict entries are
dropped by the isinstance checks. -/
def docsOf (l : List DocEntry) : List Doc :=
  l.filterMap fun de =>
    match de with
    | DocEntry.dict d => some d
    | DocEntry.nonDict => none

/-- One crew member's bucket lists in membersdata.py (whole document records,
appended in input order). -/
structure Report where
  valid : List Doc
  expired : List Doc
  expiry_not_mentioned : List Doc
deriving DecidableEq

/-- The per-member classification loop of membersdata.py lines 72-94: each
record lands in the bucket named by its classification; non-dict entries are
skipped. -/
def memberReport (l : List DocEntry) (now : DateTime) : Report :=
  let ds := docsOf l
  { valid := ds.filter fun d => decide (classifyM d now = Classification.Valid)
  , expired := ds.filter fun d => decide (classifyM d now = Classification.Expired)
  , expiry_not_mentioned :=
      ds.filter fun d => decide (classifyM d now = Classification.StatusUnknown) }

/-- Python dict assignment d[k] = v on an insertion-ordered dict: replace in
place if the key exists, else append. -/
def dictInsert (k : String) (v : α) : List (String × α) → List (String × α)
  | [] => [(k, v)]
  | (k', v') :: rest =>
    if k' = k then (k, v) :: rest else (k', v') :: dictInsert k v rest

/-- The crew loop of membersdata.analyze_crew_certifications (lines 55-94),
threading the analysis_results dict: the report key is the member's email or
the fallback "no-email-found-for-{crew_id}" when the email key is absent; the
entry is assigned (empty) before the documents check, so a member with falsy
documents still gets an empty entry. -/
def membersGo (now : DateTime) :
    List (String × CrewData) → List (String × Report) → List (String × Report)
  | [], rep => rep
  | (cid, cd) :: rest, rep =>
    let email := cd.email.getD ("no-email-found-for-" ++ cid)
    let r :=
      match truthyDocs cd.documents with
      | none => (⟨[], [], []⟩ : Report)
      | some ds => memberReport ds now
    membersGo now rest (dictInsert email r rep)

/-- membersdata.analyze_crew_certifications restricted to its pure result: the
analysis_results mapping that is written to the output file. -/
def analyzeCrewCertifications (now : DateTime)
    (crew : List (String × CrewData)) : List (String × Report) :=
  membersGo now crew []

/-- finalcheck.py stores document titles, d.get('document_certificate', 'N/A'). -/
def titleOf (d : Doc) : String :=
  d.document_certificate.getD "N/A"

/-- One crew member's report entry in finalcheck.py: the three bucket lists
mapped to titles (lines 143-147 of the file). -/
structure ReportT where
  valid : List String
  expired : List String
  expiry_not_mentioned : List String
deriving DecidableEq

/-- The per-member classification of finalcheck.py lines 126-147 (same
classifier as membersdata), reported as titles. -/
def memberReportT (l : List DocEntry) (now : DateTime) : ReportT :=
  let r := memberReport l now
  ⟨r.valid.map titleOf, r.expired.map titleOf,
   r.expiry_not_mentioned.map titleOf⟩

/-- The crew loop of finalcheck.analyze_and_notify_crew (lines 102-183 of the
file), restricted to its observable outcome: the analysis_results report and
the list of recipients for which send_email was invoked. A member with a falsy
email is skipped before anything is recorded. The report entry is assigned
before the email decision. An email is attempted when any bucket is non-empty
(expired/missing trigger the urgent prompt, otherwise all-valid triggers the
positive prompt) and body generation succeeded (bodyOk); with all buckets
empty the member is skipped after the report entry is written. -/
def finalcheckGo (now : DateTime) (bodyOk : Bool) :
    List (String × CrewData) → List (String × ReportT) → List String →
    List (String × ReportT) × List String
  | [], rep, att => (rep, att)
  | (cid, cd) :: rest, rep, att =>
    let _ := cid
    match truthyStr cd.email with
    | none => finalcheckGo now bodyOk rest rep att
    | some email =>
      let r :=
        match truthyDocs cd.documents with
        | none => (⟨[], [], []⟩ : ReportT)
        | some ds => memberReportT ds now
      let rep' := dictInsert email r rep
      let att' :=
        if r.expired ≠ [] ∨ r.expiry_not_mentioned ≠ [] ∨ r.valid ≠ [] then
          (if bodyOk then att ++ [email] else att)
        else att
      finalcheckGo now bodyOk rest rep' att'

/-- finalcheck.analyze_and_notify_crew as a pure function of the fetched crew
data, the reference time and the body-generation outcome. -/
def finalcheckRun (now : DateTime) (bodyOk : Bool)
    (crew : List (String × CrewData)) : List (String × ReportT) × List String :=
  finalcheckGo now bodyOk crew [] []

/-- Claim C4: key derivation is a deterministic function of the document
number — every occurrence of the characters '.', '/', '#' is replaced by '_'
and the result is prefixed with the fixed marker "EXPIRED_"; in particular
"A.1/2#3" maps to "EXPIRED_A_1_2_3". The three sequential replace calls of the
source are shown equal to a single simultaneous character substitution. -/
theorem deriveKey_sanitizes (dn : String) :
    (deriveKey dn).data =
      "EXPIRED_".data ++ dn.data.map
        (fun c => if c = '.' ∨ c = '/' ∨ c = '#' then '_' else c) ∧
    deriveKey "A.1/2#3" = "EXPIRED_A_1_2_3" := by
  constructor
  · show ("EXPIRED_" ++ sanitize dn).data = _
    rw [String.data_append]
    congr 1
    show ((dn.data.map _).map _).map _ = _
    rw [List.map_map, List.map_map]
    apply List.map_congr_left
    intro c _
    by_cases h1 : c = '.' <;> by_cases h2 : c = '/' <;> by_cases h3 : c = '#' <;>
      simp [h1, h2, h3, Function.comp]
  · decide

/-- Claim C10: the notification-key derivation is not injective — the distinct
document numbers "A.1" and "A/1" share the key "EXPIRED_A_1" — so once the
ledger holds the entry recorded for "A.1", a crew member's expired document
numbered "A/1" is excluded from the toNotify batch even though it was never
notified: with a ledger containing exactly that one key, reconciliation of the
expired document numbered "A/1" returns the empty batch. -/
theorem deriveKey_not_injective :
    ("A.1" : String) ≠ "A/1" ∧
    deriveKey "A.1" = deriveKey "A/1" ∧
    isExpiredN ⟨some "Cert", some "01-Jan-2020", some "A/1"⟩ ⟨2025, 1, 1, 0⟩ = true ∧
    reconcileE
      ⟨fun cid k => Except.ok (decide (cid = "c1" ∧ k = deriveKey "A.1")),
       some "body", fun _ => true⟩
      "c1" [DocEntry.dict ⟨some "Cert", some "01-Jan-2020", some "A/1"⟩]
      ⟨2025, 1, 1, 0⟩ = Except.ok [] := by
  refine ⟨by decide, by decide, by decide, ?_⟩
  decide

/-- Claim C2 counterexample: at the boundary where the parsed expiry equals
the reference time, the classifier of membersdata.py / finalcheck.py returns
Expired, not Valid as the claim states — the source tests parsed > now for
Valid, not parsed ≥ now. -/
theorem classify_equal_boundary_cex :
    parseDate "01-Jan-2020" = some ⟨2020, 1, 1, 0⟩ ∧
    classifyM ⟨some "Seamans Book", some "01-Jan-2020", some "A0084047"⟩
      ⟨2020, 1, 1, 0⟩ = Classification.Expired ∧
    classifyM ⟨some "Seamans Book", some "01-Jan-2020", some "A0084047"⟩
      ⟨2020, 1, 1, 0⟩ ≠ Classification.Valid := by
  refine ⟨by decide, by decide, by decide⟩

/-- Claim C2 as amended: for a document whose expiry parses, the expiry check
of crew_notifier.py marks it expired exactly when the parsed date is strictly
before the reference time (equality is treated as not expired there), while
the classifier of membersdata.py / finalcheck.py returns Valid exactly when
the parsed date is strictly after the reference time and Expired exactly when
it is less than or equal — so a parsed expiry equal to the reference time is
not expired for the notifier but classified Expired in the report. -/
theorem classify_boundary_amended (doc : Doc) (now : DateTime) (s : String)
    (d : DateTime) (hs : truthyStr doc.expiry_date = some s)
    (hp : parseDate s = some d) :
    isExpiredN doc now = dtLt d now ∧
    (classifyM doc now = Classification.Valid ↔ dtLt now d = true) ∧
    (classifyM doc now = Classification.Expired ↔ dtLt now d = false) := by
  have h1 : isExpiredN doc now = dtLt d now := by
    unfold isExpiredN
    rw [hs]
    dsimp only
    rw [hp]
  have h2 : classifyM doc now =
      if dtLt now d then Classification.Valid else Classification.Expired := by
    unfold classifyM
    rw [hs]
    dsimp only
    rw [hp]
  rw [h1, h2]
  cases h : dtLt now d <;> simp

/-- Witness for classify_boundary_amended at the concrete expiry
"01-Jan-2020" and reference time one second past that midnight. -/
theorem classify_boundary_amended_witness :
    truthyStr (some "01-Jan-2020") = some "01-Jan-2020" ∧
    parseDate "01-Jan-2020" = some ⟨2020, 1, 1, 0⟩ ∧
    isExpiredN ⟨some "Cert", some "01-Jan-2020", some "N1"⟩
      ⟨2020, 1, 1, 1⟩ = true := by
  refine ⟨by decide, by decide, ?_⟩
  have h := classify_boundary_amended
    ⟨some "Cert", some "01-Jan-2020", some "N1"⟩ ⟨2020, 1, 1, 1⟩
    "01-Jan-2020" ⟨2020, 1, 1, 0⟩ (by decide) (by decide)
  rw [h.1]
  decide

/-- Claim C3: classification is total and exclusive — every document record is
assigned exactly one of Valid, Expired, StatusUnknown; a document whose expiry
field is missing, empty, or fails to parse is StatusUnknown and never
Expired (also never expired for the notifier's check); parsing is modelled by
the total function parseDate, so no parse exception escapes, and a document
classified Expired necessarily had a truthy, successfully parsed expiry. -/
theorem classification_total_failsafe (doc : Doc) (now : DateTime) :
    (classifyM doc now = Classification.Valid ∨
     classifyM doc now = Classification.Expired ∨
     classifyM doc now = Classification.StatusUnknown) ∧
    (truthyStr doc.expiry_date = none →
      classifyM doc now = Classification.StatusUnknown ∧
      isExpiredN doc now = false) ∧
    (∀ s, truthyStr doc.expiry_date = some s → parseDate s = none →
      classifyM doc now = Classification.StatusUnknown ∧
      isExpiredN doc now = false) ∧
    (classifyM doc now = Classification.Expired →
      ∃ s d, truthyStr doc.expiry_date = some s ∧ parseDate s = some d) := by
  unfold classifyM isExpiredN
  cases he : truthyStr doc.expiry_date with
  | none =>
    dsimp only
    refine ⟨Or.inr (Or.inr rfl), fun _ => ⟨rfl, rfl⟩, ?_, ?_⟩
    · intro s' hs'
      exact Option.noConfusion hs'
    · intro hc
      exact Classification.noConfusion hc
  | some s =>
    dsimp only
    cases hp : parseDate s with
    | none =>
      dsimp only
      refine ⟨Or.inr (Or.inr rfl), ?_, fun _ _ _ => ⟨rfl, rfl⟩, ?_⟩
      · intro hn
        exact Option.noConfusion hn
      · intro hc
        exact Classification.noConfusion hc
    | some d =>
      dsimp only
      refine ⟨?_, ?_, ?_, fun _ => ⟨s, d, rfl, hp⟩⟩
      · cases h : dtLt now d <;> simp [h]
      · intro hn
        exact Option.noConfusion hn
      · intro s' hs' hn
        rw [Option.some.injEq] at hs'
        subst hs'
        rw [hp] at hn
        exact Option.noConfusion hn

/-- Witness for classification_total_failsafe at a document whose expiry
string "31-Foo-2020" fails to parse: it is StatusUnknown and not expired. -/
theorem classification_total_failsafe_witness :
    truthyStr (some "31-Foo-2020") = some "31-Foo-2020" ∧
    parseDate "31-Foo-2020" = none ∧
    classifyM ⟨some "Cert", some "31-Foo-2020", some "N1"⟩
      ⟨2025, 1, 1, 0⟩ = Classification.StatusUnknown ∧
    isExpiredN ⟨some "Cert", some "31-Foo-2020", some "N1"⟩
      ⟨2025, 1, 1, 0⟩ = false := by
  refine ⟨by decide, by decide, ?_⟩
  exact (classification_total_failsafe
    ⟨some "Cert", some "31-Foo-2020", some "N1"⟩ ⟨2025, 1, 1, 0⟩).2.2.1
    "31-Foo-2020" (by decide) (by decide)

/-- Helper: if the ledger already holds the key of every expired, numbered
document of a list, reconciliation of that list returns the empty batch
without raising. -/
theorem reconcileE_empty_of_ledger (env : Env) (cid : String) (now : DateTime) :
    ∀ docs : List DocEntry,
    (∀ d dn, DocEntry.dict d ∈ docs → isExpiredN d now = true →
      truthyStr d.document_number = some dn →
      env.ledgerGet cid (deriveKey dn) = Except.ok true) →
    reconcileE env cid docs now = Except.ok [] := by
  intro docs
  induction docs with
  | nil => intro _; rfl
  | cons de rest ih =>
    intro h
    have hrest := ih (fun d dn hm he ht => h d dn (List.mem_cons_of_mem _ hm) he ht)
    cases de with
    | nonDict => exact hrest
    | dict doc =>
      show (if isExpiredN doc now then _ else _) = _
      cases hex : isExpiredN doc now with
      | false => simpa [hex] using hrest
      | true =>
        cases ht : truthyStr doc.document_number with
        | none => simpa [hex, ht] using hrest
        | some dn =>
          have hl := h doc dn (List.mem_cons_self _ _) hex ht
          simp [hex, ht, hl, hrest]

/-- Helper: a member whose reconciliation always returns the empty batch
produces no email and no ledger write. -/
theorem processMember_noop (env : Env) (now : DateTime) (cid : String)
    (cd : CrewData)
    (h : ∀ docs, truthyDocs cd.documents = some docs →
      reconcileE env cid docs now = Except.ok []) :
    processMember env now cid cd = Except.ok ([], []) := by
  unfold processMember
  cases he : truthyStr cd.email with
  | none => rfl
  | some em =>
    dsimp only
    cases hd : truthyDocs cd.documents with
    | none => rfl
    | some docs =>
      dsimp only
      rw [h docs hd]
      rfl

/-- Helper: a run over members that each produce no effects completes with no
emails and no ledger writes. -/
theorem run_noop (env : Env) (now : DateTime) :
    ∀ crew : List (String × CrewData),
    (∀ cid cd, (cid, cd) ∈ crew →
      processMember env now cid cd = Except.ok ([], [])) →
    analyzeAndNotifyCrew env now crew = ⟨[], [], true⟩ := by
  intro crew
  induction crew with
  | nil => intro _; rfl
  | cons p rest ih =>
    intro h
    obtain ⟨cid, cd⟩ := p
    have h1 := h cid cd (List.mem_cons_self _ _)
    have hrest := ih (fun c2 d2 hm => h c2 d2 (List.mem_cons_of_mem _ hm))
    show (match processMember env now cid cd with
      | Except.error _ => (⟨[], [], false⟩ : RunOut)
      | Except.ok (s, w) =>
        let r := analyzeAndNotifyCrew env now rest
        ⟨s ++ r.sent, w ++ r.writes, r.completed⟩) = ⟨[], [], true⟩
    rw [h1, hrest]
    rfl

/-- Claim C1: for every crew member, if the ledger already contains an entry
for every currently-expired document that has a document number, then (with
documents and reference time unchanged) reconciliation produces an empty
toNotify list for each member, so the run dispatches no email and performs no
ledger write. -/
theorem reconcile_idempotent_run (env : Env) (now : DateTime)
    (crew : List (String × CrewData))
    (h : ∀ cid cd, (cid, cd) ∈ crew → ∀ docs,
      truthyDocs cd.documents = some docs → ∀ d dn,
      DocEntry.dict d ∈ docs → isExpiredN d now = true →
      truthyStr d.document_number = some dn →
      env.ledgerGet cid (deriveKey dn) = Except.ok true) :
    analyzeAndNotifyCrew env now crew = ⟨[], [], true⟩ ∧
    ∀ cid cd, (cid, cd) ∈ crew → ∀ docs,
      truthyDocs cd.documents = some docs →
      reconcileE env cid docs now = Except.ok [] := by
  constructor
  · apply run_noop
    intro cid cd hm
    apply processMember_noop
    intro docs hd
    exact reconcileE_empty_of_ledger env cid now docs (h cid cd hm docs hd)
  · intro cid cd hm docs hd
    exact reconcileE_empty_of_ledger env cid now docs (h cid cd hm docs hd)

/-- Witness for reconcile_idempotent_run: one member with one expired,
numbered, already-ledgered document; the run sends and writes nothing. -/
theorem reconcile_idempotent_run_witness :
    truthyDocs (some [DocEntry.dict ⟨some "Cert", some "01-Jan-2020", some "A123"⟩]) =
      some [DocEntry.dict ⟨some "Cert", some "01-Jan-2020", some "A123"⟩] ∧
    isExpiredN ⟨some "Cert", some "01-Jan-2020", some "A123"⟩ ⟨2025, 1, 1, 0⟩ = true ∧
    analyzeAndNotifyCrew
      ⟨fun _ _ => Except.ok true, some "body", fun _ => true⟩ ⟨2025, 1, 1, 0⟩
      [("c1", ⟨some "ann@example.com", some "Ann",
        some [DocEntry.dict ⟨some "Cert", some "01-Jan-2020", some "A123"⟩]⟩)] =
      ⟨[], [], true⟩ := by
  refine ⟨rfl, by decide, ?_⟩
  exact (reconcile_idempotent_run _ _ _
    (fun _ _ _ _ _ _ _ _ _ _ => rfl)).1

/-- Helper: every document of a successful reconciliation batch has a truthy
document number whose key was absent from the ledger, and is expired. -/
theorem reconcileE_mem_number (env : Env) (cid : String) (now : DateTime) :
    ∀ (docs : List DocEntry) (l : List Doc),
    reconcileE env cid docs now = Except.ok l →
    ∀ d ∈ l, ∃ dn, truthyStr d.document_number = some dn ∧
      env.ledgerGet cid (deriveKey dn) = Except.ok false ∧
      isExpiredN d now = true := by
  intro docs
  induction docs with
  | nil =>
    intro l hl d hd
    injection hl with hl
    subst hl
    exact absurd hd (List.not_mem_nil d)
  | cons de rest ih =>
    intro l hl d hd
    cases de with
    | nonDict => exact ih l hl d hd
    | dict doc =>
      by_cases hex : isExpiredN doc now
      · rw [show reconcileE env cid (DocEntry.dict doc :: rest) now =
            (match truthyStr doc.document_number with
             | none => reconcileE env cid rest now
             | some dn =>
               match env.ledgerGet cid (deriveKey dn) with
               | Except.error e => Except.error e
               | Except.ok true => reconcileE env cid rest now
               | Except.ok false =>
                 match reconcileE env cid rest now with
                 | Except.error e => Except.error e
                 | Except.ok l2 => Except.ok (doc :: l2)) from by
          show (if isExpiredN doc now then _ else _) = _
          rw [if_pos hex]] at hl
        cases ht : truthyStr doc.document_number with
        | none =>
          rw [ht] at hl
          exact ih l hl d hd
        | some dn =>
          rw [ht] at hl
          dsimp only at hl
          cases hg : env.ledgerGet cid (deriveKey dn) with
          | error e => rw [hg] at hl; exact Except.noConfusion hl
          | ok b =>
            cases b with
            | true => rw [hg] at hl; exact ih l hl d hd
            | false =>
              rw [hg] at hl
              cases hr : reconcileE env cid rest now with
              | error e => rw [hr] at hl; exact Except.noConfusion hl
              | ok l2 =>
                rw [hr] at hl
                injection hl with hl
                subst hl
                rcases List.mem_cons.mp hd with h1 | h2
                · subst h1
                  exact ⟨dn, ht, hg, hex⟩
                · exact ih l2 hr d h2
      · rw [show reconcileE env cid (DocEntry.dict doc :: rest) now =
            reconcileE env cid rest now from by
          show (if isExpiredN doc now then _ else _) = _
          rw [if_neg hex]] at hl
        exact ih l hl d hd

/-- Helper: a per-member step that does not raise either has no effects, or
sent exactly one email carrying the non-empty toNotify batch after a
successful body generation and dispatch, writing one ledger key per notified
document. -/
theorem processMember_shape (env : Env) (now : DateTime) (cid : String)
    (cd : CrewData) (s : List (String × List Doc)) (w : List (String × String))
    (h : processMember env now cid cd = Except.ok (s, w)) :
    (s = [] ∧ w = []) ∨
    ∃ em tn docs, truthyStr cd.email = some em ∧
      truthyDocs cd.documents = some docs ∧
      reconcileE env cid docs now = Except.ok tn ∧
      tn ≠ [] ∧ env.emailBody.isSome = true ∧ env.sendOk em = true ∧
      s = [(em, tn)] ∧ w = tn.map fun d => (cid, keyOf d) := by
  unfold processMember at h
  cases he : truthyStr cd.email with
  | none =>
    rw [he] at h
    injection h with h
    injection h with h1 h2
    exact Or.inl ⟨h1.symm, h2.symm⟩
  | some em =>
    rw [he] at h
    try dsimp only at h
    cases hd : truthyDocs cd.documents with
    | none =>
      rw [hd] at h
      injection h with h
      injection h with h1 h2
      exact Or.inl ⟨h1.symm, h2.symm⟩
    | some docs =>
      rw [hd] at h
      try dsimp only at h
      cases hr : reconcileE env cid docs now with
      | error e =>
        rw [hr] at h
        exact Except.noConfusion h
      | ok tn =>
        rw [hr] at h
        try dsimp only at h
        cases htn : tn.isEmpty with
        | true =>
          rw [if_pos htn] at h
          injection h with h
          injection h with h1 h2
          exact Or.inl ⟨h1.symm, h2.symm⟩
        | false =>
          rw [if_neg (by simp [htn])] at h
          cases hb : env.emailBody with
          | none =>
            rw [hb] at h
            injection h with h
            injection h with h1 h2
            exact Or.inl ⟨h1.symm, h2.symm⟩
          | some body =>
            rw [hb] at h
            try dsimp only at h
            cases hs : env.sendOk em with
            | false =>
              rw [if_neg (by simp [hs])] at h
              injection h with h
              injection h with h1 h2
              exact Or.inl ⟨h1.symm, h2.symm⟩
            | true =>
              rw [if_pos hs] at h
              injection h with h
              injection h with h1 h2
              refine Or.inr ⟨em, tn, docs, rfl, rfl, hr, ?_, rfl, hs,
                h1.symm, h2.symm⟩
              intro hc
              subst hc
              exact absurd htn (by simp)

/-- Claim C5: in every run and for every ledger state, a document without a
truthy document number never appears in a reconciliation batch (expired or
not) and hence is never notified; and every ledger write of a member step
comes from a document of the notified batch, so such a document never
produces a ledger entry. -/
theorem no_number_never_notified (env : Env) (now : DateTime) (cid : String)
    (d : Doc) (hn : truthyStr d.document_number = none) :
    (∀ docs l, reconcileE env cid docs now = Except.ok l → d ∉ l) ∧
    (∀ cd s w, processMember env now cid cd = Except.ok (s, w) →
      (∀ p ∈ s, d ∉ p.2) ∧
      w = (s.map fun p => p.2.map fun d2 => (cid, keyOf d2)).flatten) := by
  have part1 : ∀ docs l, reconcileE env cid docs now = Except.ok l → d ∉ l := by
    intro docs l hl hd
    obtain ⟨dn, ht, _, _⟩ := reconcileE_mem_number env cid now docs l hl d hd
    rw [hn] at ht
    exact Option.noConfusion ht
  refine ⟨part1, ?_⟩
  intro cd s w h
  rcases processMember_shape env now cid cd s w h with ⟨hs, hw⟩ |
    ⟨em, tn, docs, _, _, hr, _, _, _, hs, hw⟩
  · subst hs
    subst hw
    exact ⟨fun p hp => absurd hp (List.not_mem_nil p), by simp⟩
  · subst hs
    subst hw
    constructor
    · intro p hp
      rcases List.mem_singleton.mp hp with rfl
      exact part1 docs tn hr
    · simp [List.flatten]

/-- Witness for no_number_never_notified: an expired document with no number
is excluded from the reconciliation batch. -/
theorem no_number_never_notified_witness :
    truthyStr (none : Option String) = none ∧
    isExpiredN ⟨some "CertN", some "01-Jan-2020", none⟩ ⟨2025, 1, 1, 0⟩ = true ∧
    reconcileE ⟨fun _ _ => Except.ok false, some "body", fun _ => true⟩ "c1"
      [DocEntry.dict ⟨some "CertN", some "01-Jan-2020", none⟩]
      ⟨2025, 1, 1, 0⟩ = Except.ok [] ∧
    (⟨some "CertN", some "01-Jan-2020", none⟩ : Doc) ∉ ([] : List Doc) := by
  refine ⟨rfl, by decide, by decide, ?_⟩
  exact (no_number_never_notified
    ⟨fun _ _ => Except.ok false, some "body", fun _ => true⟩ ⟨2025, 1, 1, 0⟩
    "c1" ⟨some "CertN", some "01-Jan-2020", none⟩ rfl).1
    [DocEntry.dict ⟨some "CertN", some "01-Jan-2020", none⟩] [] (by decide)

/-- Claim C6: ledger writes are atomic with successful dispatch — if body
generation fails or dispatch fails, the member step performs no ledger write
at all; if both succeed on a non-empty batch, the step writes exactly one
entry per notified document; and the written key keyOf equals the deriveKey
of the truthy document number, the same derivation used by the dedup check. -/
theorem ledger_write_atomic (env : Env) (now : DateTime) (cid em : String)
    (nm : Option String) (docs : List DocEntry) (tn : List Doc)
    (hem : em.isEmpty = false)
    (hr : reconcileE env cid docs now = Except.ok tn) :
    (env.emailBody = none →
      ∀ s w, processMember env now cid ⟨some em, nm, some docs⟩ =
        Except.ok (s, w) → w = []) ∧
    (env.sendOk em = false →
      ∀ s w, processMember env now cid ⟨some em, nm, some docs⟩ =
        Except.ok (s, w) → w = []) ∧
    (env.emailBody.isSome = true → env.sendOk em = true → tn ≠ [] →
      docs ≠ [] →
      processMember env now cid ⟨some em, nm, some docs⟩ =
        Except.ok ([(em, tn)], tn.map fun d => (cid, keyOf d))) ∧
    (∀ d2 dn, truthyStr d2.document_number = some dn → keyOf d2 = deriveKey dn) := by
  have hemail : truthyStr (some em) = some em := by
    simp [truthyStr, hem]
  refine ⟨?_, ?_, ?_, ?_⟩
  · intro hb s w h
    rcases processMember_shape env now cid _ s w h with ⟨_, hw⟩ |
      ⟨em2, tn2, docs2, _, _, _, _, hbs, _, _, _⟩
    · exact hw
    · rw [hb] at hbs
      exact Bool.noConfusion hbs
  · intro hsend s w h
    rcases processMember_shape env now cid _ s w h with ⟨_, hw⟩ |
      ⟨em2, tn2, docs2, hem2, _, _, _, _, hsd, _, _⟩
    · exact hw
    · rw [hemail] at hem2
      injection hem2 with hem2
      subst hem2
      rw [hsend] at hsd
      exact Bool.noConfusion hsd
  · intro hb hsend htn hdocs
    unfold processMember
    rw [hemail]
    dsimp only
    have hdt : truthyDocs (some docs) = some docs := by
      cases docs with
      | nil => exact absurd rfl hdocs
      | cons a l => rfl
    rw [hdt]
    dsimp only
    rw [hr]
    dsimp only
    rw [if_neg (by simp [htn])]
    cases hbv : env.emailBody with
    | none => rw [hbv] at hb; exact Bool.noConfusion hb
    | some body =>
      dsimp only
      rw [if_pos hsend]
  · intro d2 dn ht
    cases hd2 : d2.document_number with
    | none =>
      rw [hd2] at ht
      exact Option.noConfusion ht
    | some s2 =>
      rw [hd2] at ht
      unfold truthyStr at ht
      dsimp only at ht
      by_cases hs2 : s2.isEmpty = true
      · rw [if_pos hs2] at ht
        exact Option.noConfusion ht
      · rw [if_neg hs2] at ht
        injection ht with ht
        subst ht
        unfold keyOf
        rw [hd2]
        rfl

/-- Witness for ledger_write_atomic: a successful dispatch of a one-document
batch writes exactly the key EXPIRED_A123. -/
theorem ledger_write_atomic_witness :
    ("ann@example.com" : String).isEmpty = false ∧
    reconcileE ⟨fun _ _ => Except.ok false, some "body", fun _ => true⟩ "c1"
      [DocEntry.dict ⟨some "Cert", some "01-Jan-2020", some "A123"⟩]
      ⟨2025, 1, 1, 0⟩ =
      Except.ok [⟨some "Cert", some "01-Jan-2020", some "A123"⟩] ∧
    processMember ⟨fun _ _ => Except.ok false, some "body", fun _ => true⟩
      ⟨2025, 1, 1, 0⟩ "c1"
      ⟨some "ann@example.com", some "Ann",
        some [DocEntry.dict ⟨some "Cert", some "01-Jan-2020", some "A123"⟩]⟩ =
      Except.ok ([("ann@example.com",
          [⟨some "Cert", some "01-Jan-2020", some "A123"⟩])],
        [("c1", "EXPIRED_A123")]) := by
  refine ⟨by decide, by decide, ?_⟩
  have h := (ledger_write_atomic
    ⟨fun _ _ => Except.ok false, some "body", fun _ => true⟩ ⟨2025, 1, 1, 0⟩
    "c1" "ann@example.com" (some "Ann")
    [DocEntry.dict ⟨some "Cert", some "01-Jan-2020", some "A123"⟩]
    [⟨some "Cert", some "01-Jan-2020", some "A123"⟩]
    (by decide) (by decide)).2.2.1 rfl rfl (by decide) (by decide)
  rw [h]
  rfl

/-- Claim C7 counterexample: a storage error raised during the ledger
existence check for member A aborts the whole run — member B, who would be
fully processed on their own (email sent, key written), gets nothing when
processed after A, contradicting per-member fault isolation. -/
theorem member_fault_not_isolated_cex :
    processMember
      ⟨fun cid _ => if cid = "A" then Except.error () else Except.ok false,
       some "body", fun _ => true⟩
      ⟨2025, 1, 1, 0⟩ "A"
      ⟨some "ann@example.com", some "Ann",
        some [DocEntry.dict ⟨some "CertA", some "01-Jan-2020", some "A123"⟩]⟩ =
      Except.error () ∧
    analyzeAndNotifyCrew
      ⟨fun cid _ => if cid = "A" then Except.error () else Except.ok false,
       some "body", fun _ => true⟩
      ⟨2025, 1, 1, 0⟩
      [("A", ⟨some "ann@example.com", some "Ann",
        some [DocEntry.dict ⟨some "CertA", some "01-Jan-2020", some "A123"⟩]⟩),
       ("B", ⟨some "bob@example.com", some "Bob",
        some [DocEntry.dict ⟨some "CertB", some "01-Jan-2020", some "B456"⟩]⟩)] =
      ⟨[], [], false⟩ ∧
    analyzeAndNotifyCrew
      ⟨fun cid _ => if cid = "A" then Except.error () else Except.ok false,
       some "body", fun _ => true⟩
      ⟨2025, 1, 1, 0⟩
      [("B", ⟨some "bob@example.com", some "Bob",
        some [DocEntry.dict ⟨some "CertB", some "01-Jan-2020", some "B456"⟩]⟩)] =
      ⟨[("bob@example.com", [⟨some "CertB", some "01-Jan-2020", some "B456"⟩])],
       [("B", "EXPIRED_B456")], true⟩ := by
  refine ⟨by decide, by decide, by decide⟩

/-- Claim C7 as amended: failures inside body generation or dispatch are
caught by the helper functions, so the member merely produces no email and no
ledger write and every later member is still processed; but an error raised
during the ledger existence check is propagated by the loop — the failing
member is never treated as not-notified (no email, no write), and the rest of
the run is aborted: members after the failing one are not processed. -/
theorem member_fault_semantics (env : Env) (now : DateTime) (cid : String)
    (cd : CrewData) (rest : List (String × CrewData)) :
    (processMember env now cid cd = Except.error () →
      analyzeAndNotifyCrew env now ((cid, cd) :: rest) = ⟨[], [], false⟩) ∧
    (∀ s w, processMember env now cid cd = Except.ok (s, w) →
      analyzeAndNotifyCrew env now ((cid, cd) :: rest) =
        ⟨s ++ (analyzeAndNotifyCrew env now rest).sent,
         w ++ (analyzeAndNotifyCrew env now rest).writes,
         (analyzeAndNotifyCrew env now rest).completed⟩) ∧
    (∀ em, truthyStr cd.email = some em →
      (env.emailBody = none ∨ env.sendOk em = false) →
      ∀ s w, processMember env now cid cd = Except.ok (s, w) →
        s = [] ∧ w = []) := by
  refine ⟨?_, ?_, ?_⟩
  · intro h
    show (match processMember env now cid cd with
      | Except.error _ => (⟨[], [], false⟩ : RunOut)
      | Except.ok (s, w) =>
        let r := analyzeAndNotifyCrew env now rest
        ⟨s ++ r.sent, w ++ r.writes, r.completed⟩) = ⟨[], [], false⟩
    rw [h]
  · intro s w h
    show (match processMember env now cid cd with
      | Except.error _ => (⟨[], [], false⟩ : RunOut)
      | Except.ok (s, w) =>
        let r := analyzeAndNotifyCrew env now rest
        ⟨s ++ r.sent, w ++ r.writes, r.completed⟩) = _
    rw [h]
  · intro em hem hfail s w h
    rcases processMember_shape env now cid cd s w h with ⟨hs, hw⟩ |
      ⟨em2, tn2, docs2, hem2, _, _, _, hbs, hsd, _, _⟩
    · exact ⟨hs, hw⟩
    · rw [hem] at hem2
      injection hem2 with hem2
      subst hem2
      rcases hfail with hb | hsend
      · rw [hb] at hbs
        exact Bool.noConfusion hbs
      · rw [hsend] at hsd
        exact Bool.noConfusion hsd

/-- Witness for member_fault_semantics: with a raising ledger, the run on
two members stops at the first, producing no effects. -/
theorem member_fault_semantics_witness :
    processMember
      ⟨fun _ _ => Except.error (), some "body", fun _ => true⟩
      ⟨2025, 6, 15, 0⟩ "A"
      ⟨some "ann@example.com", some "Ann",
        some [DocEntry.dict ⟨some "CertA", some "01-Jan-2020", some "A123"⟩]⟩ =
      Except.error () ∧
    analyzeAndNotifyCrew
      ⟨fun _ _ => Except.error (), some "body", fun _ => true⟩
      ⟨2025, 6, 15, 0⟩
      [("A", ⟨some "ann@example.com", some "Ann",
        some [DocEntry.dict ⟨some "CertA", some "01-Jan-2020", some "A123"⟩]⟩),
       ("B", ⟨some "bob@example.com", some "Bob",
        some [DocEntry.dict ⟨some "CertB", some "01-Jan-2020", some "B456"⟩]⟩)] =
      ⟨[], [], false⟩ := by
  refine ⟨by decide, ?_⟩
  exact (member_fault_semantics
    ⟨fun _ _ => Except.error (), some "body", fun _ => true⟩ ⟨2025, 6, 15, 0⟩
    "A" ⟨some "ann@example.com", some "Ann",
      some [DocEntry.dict ⟨some "CertA", some "01-Jan-2020", some "A123"⟩]⟩
    [("B", ⟨some "bob@example.com", some "Bob",
      some [DocEntry.dict ⟨some "CertB", some "01-Jan-2020", some "B456"⟩]⟩)]).1
    (by decide)

/-- Claim C8 counterexample: in finalcheck.analyze_and_notify_crew a crew
member without a contact email is skipped before the report entry is written,
so their expired document — which the classifier itself marks Expired —
appears in no classification report entry, contradicting the claim that such
members are still classified. -/
theorem missing_email_not_in_report_cex :
    finalcheckRun ⟨2025, 1, 1, 0⟩ true
      [("c1", ⟨none, some "Pat",
        some [DocEntry.dict ⟨some "CertC", some "01-Jan-2020", some "C1"⟩]⟩)] =
      ([], []) ∧
    classifyM ⟨some "CertC", some "01-Jan-2020", some "C1"⟩ ⟨2025, 1, 1, 0⟩ =
      Classification.Expired := by
  refine ⟨by decide, by decide⟩

/-- Claim C8 as amended: a member with a falsy email is excluded from
notification, but whether they are classified depends on the script — the
notifier of finalcheck.py (like crew_notifier.py) skips them entirely,
contributing neither a report entry nor an email attempt, while the analyzer
of membersdata.py (which sends no email at all) still classifies them under
the fallback key "no-email-found-for-{crew_id}", every record of their
document list landing in exactly one bucket. -/
theorem missing_email_semantics (now : DateTime) (bodyOk : Bool) (cid : String)
    (cd : CrewData) (rest : List (String × CrewData))
    (rep : List (String × ReportT)) (att : List String)
    (hne : truthyStr cd.email = none) :
    finalcheckGo now bodyOk ((cid, cd) :: rest) rep att =
      finalcheckGo now bodyOk rest rep att ∧
    (cd.email = none → ∀ docs, truthyDocs cd.documents = some docs →
      analyzeCrewCertifications now [(cid, cd)] =
        [("no-email-found-for-" ++ cid, memberReport docs now)] ∧
      ∀ d, DocEntry.dict d ∈ docs →
        d ∈ (memberReport docs now).valid ∨
        d ∈ (memberReport docs now).expired ∨
        d ∈ (memberReport docs now).expiry_not_mentioned) := by
  constructor
  · show (match truthyStr cd.email with
      | none => finalcheckGo now bodyOk rest rep att
      | some email => _) = finalcheckGo now bodyOk rest rep att
    rw [hne]
  · intro hnone docs hdocs
    constructor
    · show membersGo now [(cid, cd)] [] = _
      unfold membersGo
      rw [hnone, hdocs]
      dsimp only
      rfl
    · intro d hd
      have hds : d ∈ docsOf docs := by
        unfold docsOf
        exact List.mem_filterMap.mpr ⟨DocEntry.dict d, hd, rfl⟩
      rcases hc : classifyM d now with _ | _ | _
      · exact Or.inl (List.mem_filter.mpr ⟨hds, by rw [hc]; rfl⟩)
      · exact Or.inr (Or.inl (List.mem_filter.mpr ⟨hds, by rw [hc]; rfl⟩))
      · exact Or.inr (Or.inr (List.mem_filter.mpr ⟨hds, by rw [hc]; rfl⟩))

/-- Witness for missing_email_semantics: a no-email member is classified by
membersdata under the fallback key. -/
theorem missing_email_semantics_witness :
    truthyStr (none : Option String) = none ∧
    truthyDocs (some [DocEntry.dict ⟨some "CertC", some "01-Jan-2020", some "C1"⟩]) =
      some [DocEntry.dict ⟨some "CertC", some "01-Jan-2020", some "C1"⟩] ∧
    analyzeCrewCertifications ⟨2025, 1, 1, 0⟩
      [("c1", ⟨none, some "Pat",
        some [DocEntry.dict ⟨some "CertC", some "01-Jan-2020", some "C1"⟩]⟩)] =
      [("no-email-found-for-c1",
        memberReport [DocEntry.dict ⟨some "CertC", some "01-Jan-2020", some "C1"⟩]
          ⟨2025, 1, 1, 0⟩)] := by
  refine ⟨rfl, rfl, ?_⟩
  exact ((missing_email_semantics ⟨2025, 1, 1, 0⟩ true "c1"
    ⟨none, some "Pat",
      some [DocEntry.dict ⟨some "CertC", some "01-Jan-2020", some "C1"⟩]⟩
    [] [] [] rfl).2 rfl
    [DocEntry.dict ⟨some "CertC", some "01-Jan-2020", some "C1"⟩] rfl).1

/-- Claim C9 counterexample: a non-record entry in the document list is
silently skipped by the isinstance check — it does not appear in the
expiry_not_mentioned bucket (nor any other) of either report, contradicting
the claim that it is reported there. -/
theorem non_dict_entry_not_reported_cex :
    memberReport [DocEntry.nonDict] ⟨2025, 1, 1, 0⟩ =
      ⟨[], [], []⟩ ∧
    (memberReport [DocEntry.nonDict] ⟨2025, 1, 1, 0⟩).expiry_not_mentioned = [] ∧
    memberReportT [DocEntry.nonDict] ⟨2025, 1, 1, 0⟩ = ⟨[], [], []⟩ := by
  refine ⟨by decide, by decide, by decide⟩

/-- Claim C9 as amended: malformed data never crashes the run — the
functions are total — but a non-record entry in the document list is silently
skipped by every loop (membersdata and finalcheck reports, notifier
reconciliation), appearing in no bucket, while a record whose expiry string
fails to parse is classified StatusUnknown and lands in the
expiry_not_mentioned bucket, leaving the other buckets unchanged. -/
theorem malformed_doc_semantics (env : Env) (now : DateTime) (cid : String)
    (docs : List DocEntry) (d : Doc) (s : String) :
    memberReport (DocEntry.nonDict :: docs) now = memberReport docs now ∧
    memberReportT (DocEntry.nonDict :: docs) now = memberReportT docs now ∧
    reconcileE env cid (DocEntry.nonDict :: docs) now =
      reconcileE env cid docs now ∧
    (truthyStr d.expiry_date = some s → parseDate s = none →
      (memberReport (DocEntry.dict d :: docs) now).expiry_not_mentioned =
        d :: (memberReport docs now).expiry_not_mentioned ∧
      (memberReport (DocEntry.dict d :: docs) now).valid =
        (memberReport docs now).valid ∧
      (memberReport (DocEntry.dict d :: docs) now).expired =
        (memberReport docs now).expired) := by
  have hskip : docsOf (DocEntry.nonDict :: docs) = docsOf docs := by
    unfold docsOf
    rw [List.filterMap_cons]
  refine ⟨?_, ?_, rfl, ?_⟩
  · unfold memberReport
    rw [hskip]
  · unfold memberReportT
    unfold memberReport
    rw [hskip]
  · intro hs hp
    have hc : classifyM d now = Classification.StatusUnknown := by
      unfold classifyM
      rw [hs]
      dsimp only
      rw [hp]
    have hcons : docsOf (DocEntry.dict d :: docs) = d :: docsOf docs := by
      unfold docsOf
      rw [List.filterMap_cons]
    unfold memberReport
    rw [hcons]
    refine ⟨?_, ?_, ?_⟩
    · dsimp only
      rw [List.filter_cons_of_pos (by rw [hc]; rfl)]
    · dsimp only
      rw [List.filter_cons_of_neg (by rw [hc]; simp)]
    · dsimp only
      rw [List.filter_cons_of_neg (by rw [hc]; simp)]

/-- Witness for malformed_doc_semantics: a record with unparseable expiry
"99-Zzz-0000" lands in the expiry_not_mentioned bucket. -/
theorem malformed_doc_semantics_witness :
    truthyStr (some "99-Zzz-0000") = some "99-Zzz-0000" ∧
    parseDate "99-Zzz-0000" = none ∧
    (memberReport [DocEntry.dict ⟨some "CertZ", some "99-Zzz-0000", none⟩]
      ⟨2025, 1, 1, 0⟩).expiry_not_mentioned =
      [⟨some "CertZ", some "99-Zzz-0000", none⟩] := by
  refine ⟨by decide, by decide, ?_⟩
  have h := ((malformed_doc_semantics
    ⟨fun _ _ => Except.ok false, none, fun _ => false⟩ ⟨2025, 1, 1, 0⟩ "c" []
    ⟨some "CertZ", some "99-Zzz-0000", none⟩ "99-Zzz-0000").2.2.2
    (by decide) (by decide)).1
  rw [h]
  decide
